import Mathlib

/-!
Verification development for the streaming-response pipeline of
src/GLP_app.py (class GLP1Bot).  Text is modelled as a list of
characters; each definition is a direct translation of the Python
function it names.  Upstream HTTP behaviour (the requests library) is
modelled by an explicit transport value listing the event frames and
possible raised exceptions; exception messages are abstracted to short
tags since the pipeline only forwards them as opaque text.
-/

/-- Text is a list of characters, mirroring Python strings. -/
abbrev Str : Type := List Char

/-- Character data of a Lean string literal. -/
def ofS (s : String) : Str := s.data

/-- Membership of the default whitespace set stripped by Python str.strip. -/
def isWs (c : Char) : Bool := c = ' ' || c = '\t' || c = '\n' || c = '\r'

/-- Drop leading whitespace, as the left half of Python str.strip. -/
def trimLeft (l : Str) : Str := List.dropWhile isWs l

/-- Drop trailing whitespace, as the right half of Python str.strip. -/
def trimRight : Str → Str
  | [] => []
  | c :: cs =>
    match trimRight cs with
    | [] => if isWs c then [] else [c]
    | d :: ds => c :: d :: ds

/-- Python str.strip with the default whitespace set. -/
def pyStrip (l : Str) : Str := trimRight (trimLeft l)

/-- Python str.split with a single-character separator: keeps empty pieces. -/
def splitOnChar (sep : Char) : Str → List Str
  | [] => [[]]
  | c :: cs =>
    if c = sep then [] :: splitOnChar sep cs
    else
      match splitOnChar sep cs with
      | [] => [[c]]
      | l :: ls => (c :: l) :: ls

/-- Locate the first occurrence of a pattern: returns the text before it and
the text after it.  This models both the Python membership test
(pattern in s) and s.split(pattern, 1) for a nonempty pattern. -/
def findSplit (pat : Str) : Str → Option (Str × Str)
  | [] => if List.isPrefixOf pat [] then some ([], []) else none
  | c :: cs =>
    if List.isPrefixOf pat (c :: cs) then some ([], List.drop pat.length (c :: cs))
    else Option.map (fun p => (c :: p.1, p.2)) (findSplit pat cs)

/-- Python substring membership, pattern in s, for a nonempty pattern. -/
def occursIn (pat s : Str) : Bool := (findSplit pat s).isSome

/-- Fuel-bounded worker for Python str.replace (replace all occurrences,
scanning left to right without overlap). -/
def replaceFuel (pat rep : Str) : Nat → Str → Str
  | 0, s => s
  | _ + 1, [] => []
  | fuel + 1, c :: cs =>
    if List.isPrefixOf pat (c :: cs) then
      rep ++ replaceFuel pat rep fuel (List.drop pat.length (c :: cs))
    else
      c :: replaceFuel pat rep fuel cs

/-- Python str.replace for a nonempty pattern: each step of the worker
consumes at least one character, so length-many fuel units suffice. -/
def pyReplace (s pat rep : Str) : Str := replaceFuel pat rep s.length s

/-- The separator literal scanned for in stream_pplx_response. -/
def sepSources : Str := ofS "Sources:"

/-- The accumulator threaded through the streaming loop of
stream_pplx_response: accumulated_content, sources_text, found_sources
(GLP_app.py lines 129-131). -/
structure AnswerAcc where
  body : Str
  sources : Str
  found_sources : Bool
deriving DecidableEq

/-- Initial accumulator of one streaming call. -/
def initAcc : AnswerAcc := AnswerAcc.mk [] [] false

/-- One delta fed into the body/sources accumulator, translating
GLP_app.py lines 148-160: a delta containing the separator sends the
part before it to the body and the part after it to the sources and sets
the flag; otherwise the delta goes to whichever section the flag selects. -/
def feed (acc : AnswerAcc) (content : Str) : AnswerAcc :=
  match findSplit sepSources content with
  | some (pre, post) => AnswerAcc.mk (acc.body ++ pre) (acc.sources ++ post) true
  | none =>
    if acc.found_sources then AnswerAcc.mk acc.body (acc.sources ++ content) acc.found_sources
    else AnswerAcc.mk (acc.body ++ content) acc.sources acc.found_sources

/-- The content object of one event payload: choices[0].delta, whose
content key is read with a default (GLP_app.py line 146). -/
structure DeltaObj where
  content : Option Str
deriving DecidableEq

/-- One element of the choices array of an event payload.  A field set to
none models a JSON object in which the key is absent, so that reading it
raises KeyError; finish_reason additionally distinguishes a present key
holding null (some none) from one holding a string (some (some s)). -/
structure ChoiceObj where
  finish_reason : Option (Option Str)
  delta : Option DeltaObj
deriving DecidableEq

/-- A parsed event payload; choices set to none models an object with no
choices key. -/
structure ChunkJson where
  choices : Option (List ChoiceObj)
deriving DecidableEq

/-- One line delivered by response.iter_lines, already classified by the
checks of GLP_app.py lines 134-142: a falsy line, a line without the
data marker, the DONE sentinel, a data line whose payload is not valid
JSON, or a data line with a parsed JSON payload. -/
inductive Frame where
  | blank : Frame
  | noData : Frame
  | done : Frame
  | notJson : Frame
  | json (j : ChunkJson) : Frame
deriving DecidableEq

/-- What the loop body does with one frame: skip it, break out of the
loop, raise an exception with a message, or deliver a content delta. -/
inductive FrameAction where
  | skip : FrameAction
  | stop : FrameAction
  | fail (msg : Str) : FrameAction
  | deliver (c : Str) : FrameAction
deriving DecidableEq

/-- Per-frame handling of GLP_app.py lines 134-147: blank lines, lines
without the data marker and non-JSON payloads are skipped; the DONE
sentinel and a non-null finish_reason break the loop; reading a missing
choices, finish_reason or delta key raises; a missing or empty content
string is skipped; otherwise the content delta is delivered. -/
def decodeFrame : Frame → FrameAction
  | Frame.blank => FrameAction.skip
  | Frame.noData => FrameAction.skip
  | Frame.done => FrameAction.stop
  | Frame.notJson => FrameAction.skip
  | Frame.json j =>
    match j.choices with
    | none => FrameAction.fail (ofS "KeyError: choices")
    | some [] => FrameAction.fail (ofS "IndexError: list index out of range")
    | some (ch :: _) =>
      match ch.finish_reason with
      | none => FrameAction.fail (ofS "KeyError: finish_reason")
      | some (some _) => FrameAction.stop
      | some none =>
        match ch.delta with
        | none => FrameAction.fail (ofS "KeyError: delta")
        | some d =>
          match d.content with
          | none => FrameAction.skip
          | some c => if c = [] then FrameAction.skip else FrameAction.deliver c

/-- One yielded dictionary of stream_pplx_response: a mid-stream content
chunk carrying the delta and the accumulated body, the final complete
chunk carrying the stripped body and sources, or an error chunk. -/
inductive Chunk where
  | content (data accumulated : Str) : Chunk
  | complete (body sources : Str) : Chunk
  | error (message : Str) : Chunk
deriving DecidableEq

/-- One event of the underlying transport iteration: a delivered line, or
an exception raised while reading the stream. -/
inductive TransportEvent where
  | frame (f : Frame) : TransportEvent
  | raiseExc (msg : Str) : TransportEvent
deriving DecidableEq

/-- One behaviour of the transport: init holds the message of an
exception raised by the POST itself or by raise_for_status, otherwise
events lists the lines of the body iteration. -/
structure Transport where
  init : Option Str
  events : List TransportEvent
deriving DecidableEq

/-- Prefix attached to every error message by the broad except clause of
stream_pplx_response (GLP_app.py line 179). -/
def errMsg (m : Str) : Str := ofS "Error communicating with PPLX: " ++ m

/-- The frame loop of stream_pplx_response (GLP_app.py lines 133-174):
the list of yielded chunks from accumulator state st onward.  Reaching
the end of the lines, the DONE sentinel or a set finish_reason yields the
final complete chunk with both accumulators stripped; a raised exception
is caught by the surrounding except clause, which yields one error chunk. -/
def runFrames (st : AnswerAcc) : List TransportEvent → List Chunk
  | [] => [Chunk.complete (pyStrip st.body) (pyStrip st.sources)]
  | e :: es =>
    match e with
    | TransportEvent.raiseExc m => [Chunk.error (errMsg m)]
    | TransportEvent.frame f =>
      match decodeFrame f with
      | FrameAction.skip => runFrames st es
      | FrameAction.stop => [Chunk.complete (pyStrip st.body) (pyStrip st.sources)]
      | FrameAction.fail m => [Chunk.error (errMsg m)]
      | FrameAction.deliver c =>
        Chunk.content c (feed st c).body :: runFrames (feed st c) es

/-- The generator stream_pplx_response (GLP_app.py lines 107-180) as the
list of chunks it yields for one transport behaviour. -/
def stream_pplx_response (t : Transport) : List Chunk :=
  match t.init with
  | some m => [Chunk.error (errMsg m)]
  | none => runFrames initAcc t.events

/-- A well-formed data frame whose only content is the given delta. -/
def contentFrame (s : Str) : Frame :=
  Frame.json (ChunkJson.mk (some [ChoiceObj.mk (some none) (some (DeltaObj.mk (some s)))]))

/-- A well-formed data frame whose delta object has no content key. -/
def noContentFrame : Frame :=
  Frame.json (ChunkJson.mk (some [ChoiceObj.mk (some none) (some (DeltaObj.mk none))]))

/-- One parsed source of format_citations_and_sources (GLP_app.py lines
68-76): the number placed on the card, the stripped title and the
stripped url. -/
structure Source where
  number : Nat
  title : Str
  url : Str
deriving DecidableEq

/-- The colon separating title and url on a source line. -/
def colonS : Str := ofS ":"

/-- The lines enumerated by the source-extraction loop: the stripped
sources text split on line breaks (GLP_app.py line 69). -/
def sourceLines (sources_text : Str) : List Str := splitOnChar '\n' (pyStrip sources_text)

/-- One enumerated line of the source loop: a line containing a colon is
split at the first colon into title and url and keeps its enumeration
index as its number; a line without a colon is dropped (GLP_app.py lines
70-76). -/
def parseLine (p : Nat × Str) : Option Source :=
  match findSplit colonS p.2 with
  | some (t, u) => some (Source.mk p.1 (pyStrip t) (pyStrip u))
  | none => none

/-- The source list built by format_citations_and_sources: lines are
enumerated from 1 over the unfiltered split, and colon-free lines are
dropped while their index is still consumed. -/
def parseSources (sources_text : Str) : List Source :=
  List.filterMap parseLine (List.enumFrom 1 (sourceLines sources_text))

/-- The inline citation marker of a source number (GLP_app.py line 81). -/
def citationStr (n : Nat) : Str := ofS "[" ++ (Nat.repr n).data ++ ofS "]"

/-- The clickable replacement of a citation marker (GLP_app.py line 82). -/
def clickableCitation (n : Nat) : Str :=
  ofS "<a href=\"#" ++ (Nat.repr n).data ++ ofS "\" class=\"citation-link\">"
    ++ citationStr n ++ ofS "</a>"

/-- The citation-rewriting loop of format_citations_and_sources
(GLP_app.py lines 79-83): for each parsed source in order, replace every
occurrence of its marker by the clickable form. -/
def formatContent (content : Str) (sources : List Source) : Str :=
  List.foldl (fun acc s => pyReplace acc (citationStr s.number) (clickableCitation s.number))
    content sources

/-- format_citations_and_sources (GLP_app.py lines 65-105).  The second
Python return value is an HTML rendering of one card per parsed source;
the model returns the parsed source list that the rendering enumerates,
since the cards carry no further data. -/
def format_citations_and_sources (content sources_text : Str) : Str × List Source :=
  (formatContent content (parseSources sources_text), parseSources sources_text)

/-- get_related_questions (GLP_app.py lines 182-207), parameterised by the
outcome of the follow-up completion call: an error value stands for any
exception raised by the POST, raise_for_status or the field accesses,
in which case the except clause returns the empty list; otherwise the
returned message content is stripped, split on line breaks, each line
stripped, falsy lines dropped, and the first three kept. -/
def get_related_questions (r : Except Str Str) : List Str :=
  match r with
  | Except.error _ => []
  | Except.ok content =>
    List.take 3
      (List.filter (fun q => !List.isEmpty q)
        (List.map pyStrip (splitOnChar '\n' (pyStrip content))))

/-- Lower-casing of one ASCII letter, as applied by str.lower to the
queries of this pipeline. -/
def lowerChar (c : Char) : Char :=
  if 'A' ≤ c ∧ c ≤ 'Z' then Char.ofNat (c.toNat + 32) else c

/-- str.lower applied to a query (GLP_app.py line 299). -/
def lowerStr (s : Str) : Str := List.map lowerChar s

/-- The ordered category/keyword table of categorize_query (GLP_app.py
lines 289-297). -/
def keywordCategories : List (Str × List Str) :=
  [ (ofS "dosage",
      [ofS "dose", ofS "dosage", ofS "how to take", ofS "when to take",
       ofS "injection", ofS "administration"]),
    (ofS "side_effects",
      [ofS "side effect", ofS "adverse", ofS "reaction", ofS "problem",
       ofS "issues", ofS "symptoms"]),
    (ofS "benefits",
      [ofS "benefit", ofS "advantage", ofS "help", ofS "work",
       ofS "effect", ofS "weight", ofS "glucose"]),
    (ofS "storage",
      [ofS "store", ofS "storage", ofS "keep", ofS "refrigerate",
       ofS "temperature"]),
    (ofS "lifestyle",
      [ofS "diet", ofS "exercise", ofS "lifestyle", ofS "food",
       ofS "alcohol", ofS "eating"]),
    (ofS "interactions",
      [ofS "interaction", ofS "drug", ofS "medication", ofS "combine",
       ofS "mixing"]),
    (ofS "cost",
      [ofS "cost", ofS "price", ofS "insurance", ofS "coverage",
       ofS "afford"]) ]

/-- The category loop of categorize_query: the first category in table
order with any keyword contained in the lowered query wins; no match
falls through to general (GLP_app.py lines 300-303). -/
def categorizeAux (ql : Str) : List (Str × List Str) → Str
  | [] => ofS "general"
  | (cat, kws) :: rest =>
    if List.any kws (fun kw => occursIn kw ql) then cat else categorizeAux ql rest

/-- categorize_query (GLP_app.py lines 287-303). -/
def categorize_query (q : Str) : Str := categorizeAux (lowerStr q) keywordCategories

/-- The dictionary returned by process_streaming_query: an error status
with a message, or a success status with category, original query and
response text. -/
inductive PResult where
  | perror (message : Str) : PResult
  | psuccess (category original response : Str) : PResult
deriving DecidableEq

/-- The disclaimer appended to the formatted response (GLP_app.py line 244). -/
def disclaimerStr : Str :=
  ofS "\n\nDisclaimer: Always consult your healthcare provider before making any changes to your medication or treatment plan."

/-- The chunk loop of process_streaming_query (GLP_app.py lines 223-279),
carrying the formatted response of the last complete chunk and the count
of completion-API calls made so far.  An error chunk returns at once;
a content chunk only refreshes the display; a complete chunk formats the
citations, and for a top-level query also spends one more call on
get_related_questions.  If the loop ends without a complete chunk the
final return statement reads an unbound name and the outer except
clause reports an error. -/
def procLoop (cat q : Str) (isRelated : Bool) :
    List Chunk → Option Str → Nat → PResult × Nat
  | [], none, n => (PResult.perror (ofS "Error processing query: NameError"), n)
  | [], some resp, n => (PResult.psuccess cat q resp, n)
  | Chunk.error m :: _, _, n => (PResult.perror m, n)
  | Chunk.content _ _ :: rest, acc, n => procLoop cat q isRelated rest acc n
  | Chunk.complete body sources :: rest, _, n =>
    procLoop cat q isRelated rest
      (some ((format_citations_and_sources body sources).1 ++ disclaimerStr))
      (if isRelated then n else n + 1)

/-- process_streaming_query (GLP_app.py lines 209-285) for one transport
behaviour, also counting the completion-API calls made: a query that is
falsy after stripping is rejected before the streaming call, with zero
API calls; otherwise the query is categorized, the streaming call is
made (one call) and its chunks are consumed by the loop. -/
def process_streaming_query (q : Str) (t : Transport) (isRelated : Bool) : PResult × Nat :=
  if pyStrip q = [] then (PResult.perror (ofS "Please enter a valid question."), 0)
  else procLoop (categorize_query q) q isRelated (stream_pplx_response t) none 1

/-- The accumulated body carried by a mid-stream content chunk. -/
def contentAccum : Chunk → Option Str
  | Chunk.content _ a => some a
  | _ => none

/-- Selects the mid-stream content chunks. -/
def isContentChunk : Chunk → Bool
  | Chunk.content _ _ => true
  | _ => false

/-- Selects the terminal chunks: complete or error. -/
def isTerminalChunk : Chunk → Bool
  | Chunk.content _ _ => false
  | _ => true

/-- The simulated frame sequence of the specification scenario: the
answer delta followed by the sources delta. -/
def scenarioTransport : Transport :=
  Transport.mk none
    [TransportEvent.frame (contentFrame (ofS "Take 0.25mg weekly. ")),
     TransportEvent.frame (contentFrame (ofS "Sources:\n1. Label: http://x\n2. Guide: http://y"))]

/-- The deltas actually delivered to the splitter by the frame loop: the
content values the decoder extracts, in order, up to the first event
that breaks the loop or raises (GLP_app.py lines 133-160). -/
def deliveredDeltas : List TransportEvent → List Str
  | [] => []
  | TransportEvent.raiseExc _ :: _ => []
  | TransportEvent.frame f :: es =>
    match decodeFrame f with
    | FrameAction.skip => deliveredDeltas es
    | FrameAction.stop => []
    | FrameAction.fail _ => []
    | FrameAction.deliver c => c :: deliveredDeltas es

/-- The successive values of the body accumulator after each delivered
delta, starting from state st: the accumulated_content texts carried by
the successive mid-stream content chunks (GLP_app.py lines 162-166). -/
def accumBodies (st : AnswerAcc) : List Str → List Str
  | [] => []
  | d :: ds => (feed st d).body :: accumBodies (feed st d) ds

theorem dropWhile_isWs_idem (l : Str) :
    List.dropWhile isWs (List.dropWhile isWs l) = List.dropWhile isWs l := by
  induction l with
  | nil => rfl
  | cons c cs ih =>
    by_cases h : isWs c = true
    · simp [List.dropWhile, h, ih]
    · simp [List.dropWhile, h]

theorem trimLeft_idem (l : Str) : trimLeft (trimLeft l) = trimLeft l :=
  dropWhile_isWs_idem l

theorem trimLeft_head_false (l : Str) (c : Char) (cs : Str)
    (h : trimLeft l = c :: cs) : isWs c = false := by
  induction l with
  | nil => simp [trimLeft, List.dropWhile] at h
  | cons a as ih =>
    by_cases ha : isWs a = true
    · exact ih (by simpa [trimLeft, List.dropWhile, ha] using h)
    · simp [trimLeft, List.dropWhile, ha] at h
      simp [← h.1]
      simpa using ha

theorem trimLeft_cons_of_not (c : Char) (cs : Str) (h : isWs c = false) :
    trimLeft (c :: cs) = c :: cs := by
  simp [trimLeft, List.dropWhile, h]

theorem trimRight_prefix (l : Str) : ∃ t, trimRight l ++ t = l := by
  induction l with
  | nil => exact ⟨[], rfl⟩
  | cons c cs ih =>
    obtain ⟨t, ht⟩ := ih
    cases h : trimRight cs with
    | nil =>
      by_cases hc : isWs c = true
      · exact ⟨c :: cs, by simp [trimRight, h, hc]⟩
      · refine ⟨cs, ?_⟩
        simp [trimRight, h, hc]
    | cons d ds =>
      refine ⟨t, ?_⟩
      rw [h] at ht
      simp [trimRight, h]
      simpa using ht

theorem trimRight_cons (c : Char) (cs : Str) :
    trimRight (c :: cs) =
      match trimRight cs with
      | [] => if isWs c then [] else [c]
      | d :: ds => c :: d :: ds := rfl

theorem trimRight_idem (l : Str) : trimRight (trimRight l) = trimRight l := by
  induction l with
  | nil => rfl
  | cons c cs ih =>
    cases h : trimRight cs with
    | nil =>
      by_cases hc : isWs c = true
      · simp [trimRight_cons, h, hc, trimRight]
      · simp [trimRight_cons, h, hc, trimRight]
    | cons d ds =>
      have h1 : trimRight (c :: cs) = c :: d :: ds := by rw [trimRight_cons, h]
      rw [h] at ih
      rw [h1, trimRight_cons, ih]

theorem pyStrip_idem (l : Str) : pyStrip (pyStrip l) = pyStrip l := by
  show trimRight (trimLeft (trimRight (trimLeft l))) = trimRight (trimLeft l)
  have hkey : trimLeft (trimRight (trimLeft l)) = trimRight (trimLeft l) := by
    cases h : trimRight (trimLeft l) with
    | nil => rfl
    | cons c cs =>
      obtain ⟨t, ht⟩ := trimRight_prefix (trimLeft l)
      rw [h] at ht
      have hm : trimLeft l = c :: (cs ++ t) := by rw [← ht]; simp
      exact trimLeft_cons_of_not c cs (trimLeft_head_false l c (cs ++ t) hm)
  rw [hkey, trimRight_idem]

theorem occursIn_cons_false (pat : Str) (c : Char) (cs : Str)
    (h : occursIn pat (c :: cs) = false) :
    List.isPrefixOf pat (c :: cs) = false ∧ occursIn pat cs = false := by
  by_cases hp : List.isPrefixOf pat (c :: cs) = true
  · simp [occursIn, findSplit, hp] at h
  · refine ⟨Bool.eq_false_iff.mpr hp, ?_⟩
    simpa [occursIn, findSplit, hp, Option.isSome_map] using h

theorem replaceFuel_no_occ (pat rep : Str) (fuel : Nat) :
    ∀ s : Str, occursIn pat s = false → replaceFuel pat rep fuel s = s := by
  induction fuel with
  | zero => intro s _; rfl
  | succ n ih =>
    intro s hs
    cases s with
    | nil => rfl
    | cons c cs =>
      obtain ⟨h1, h2⟩ := occursIn_cons_false pat c cs hs
      simp [replaceFuel, h1, ih cs h2]

theorem pyReplace_no_occ (s pat rep : Str) (h : occursIn pat s = false) :
    pyReplace s pat rep = s :=
  replaceFuel_no_occ pat rep s.length s h

theorem formatContent_no_occ (srcs : List Source) :
    ∀ c : Str, (∀ s ∈ srcs, occursIn (citationStr s.number) c = false) →
    formatContent c srcs = c := by
  induction srcs with
  | nil => intro c _; rfl
  | cons s rest ih =>
    intro c h
    have h1 : occursIn (citationStr s.number) c = false := h s (by simp)
    have h2 : formatContent c (s :: rest) =
        formatContent (pyReplace c (citationStr s.number) (clickableCitation s.number)) rest := rfl
    rw [h2, pyReplace_no_occ c _ _ h1]
    exact ih c (fun x hx => h x (by simp [hx]))

theorem parseLine_number (n : Nat) (l : Str) (s : Source)
    (h : parseLine (n, l) = some s) : s.number = n := by
  cases hf : findSplit colonS l with
  | none => simp [parseLine, hf] at h
  | some p =>
    simp [parseLine, hf] at h
    rw [← h]

theorem parseSources_number_bounds (l : List Str) :
    ∀ (n : Nat) (s : Source), s ∈ List.filterMap parseLine (List.enumFrom n l) →
      n ≤ s.number ∧ s.number < n + l.length := by
  induction l with
  | nil => intro n s h; simp [List.enumFrom] at h
  | cons x xs ih =>
    intro n s h
    rw [show List.enumFrom n (x :: xs) = (n, x) :: List.enumFrom (n + 1) xs from rfl,
      List.filterMap_cons] at h
    cases hp : parseLine (n, x) with
    | none =>
      rw [hp] at h
      have hb := ih (n + 1) s h
      simp only [List.length_cons]
      omega
    | some v =>
      rw [hp] at h
      rcases List.mem_cons.mp h with rfl | h2
      · have hv := parseLine_number n x s hp
        simp only [List.length_cons]
        omega
      · have hb := ih (n + 1) s h2
        simp only [List.length_cons]
        omega

theorem parseSources_numbers_pairwise (l : List Str) :
    ∀ n : Nat, List.Pairwise (fun a b => a < b)
      (List.map Source.number (List.filterMap parseLine (List.enumFrom n l))) := by
  induction l with
  | nil => intro n; simp [List.enumFrom]
  | cons x xs ih =>
    intro n
    rw [show List.enumFrom n (x :: xs) = (n, x) :: List.enumFrom (n + 1) xs from rfl,
      List.filterMap_cons]
    cases hp : parseLine (n, x) with
    | none => exact ih (n + 1)
    | some v =>
      rw [List.map_cons, List.pairwise_cons]
      constructor
      · intro y hy
        obtain ⟨s2, hs2, rfl⟩ := List.mem_map.mp hy
        have hb := (parseSources_number_bounds xs (n + 1) s2 hs2).1
        have hv := parseLine_number n x v hp
        omega
      · exact ih (n + 1)

theorem parseSources_numbers_dense (l : List Str) :
    ∀ n : Nat, (∀ x ∈ l, (findSplit colonS x).isSome = true) →
      List.map Source.number (List.filterMap parseLine (List.enumFrom n l))
        = List.range' n l.length := by
  induction l with
  | nil => intro n _; simp [List.enumFrom]
  | cons x xs ih =>
    intro n hall
    obtain ⟨p, hp⟩ := Option.isSome_iff_exists.mp (hall x (by simp))
    obtain ⟨t, u⟩ := p
    rw [show List.enumFrom n (x :: xs) = (n, x) :: List.enumFrom (n + 1) xs from rfl,
      List.filterMap_cons]
    have hpl : parseLine (n, x) = some (Source.mk n (pyStrip t) (pyStrip u)) := by
      simp [parseLine, hp]
    rw [hpl, List.map_cons, ih (n + 1) (fun y hy => hall y (by simp [hy]))]
    rfl

theorem categorizeAux_mem (ql : Str) (cats : List (Str × List Str)) :
    categorizeAux ql cats ∈ List.map Prod.fst cats ++ [ofS "general"] := by
  induction cats with
  | nil => simp [categorizeAux]
  | cons p rest ih =>
    obtain ⟨cat, kws⟩ := p
    by_cases h : List.any kws (fun kw => occursIn kw ql) = true
    · simp [categorizeAux, h]
    · have h2 : List.any kws (fun kw => occursIn kw ql) = false := Bool.eq_false_iff.mpr h
      simp only [categorizeAux, h2, Bool.false_eq_true, if_false, List.map_cons,
        List.cons_append]
      exact List.mem_cons_of_mem _ ih

theorem categorizeAux_no_match (ql : Str) (cats : List (Str × List Str))
    (h : ∀ p ∈ cats, ∀ kw ∈ p.2, occursIn kw ql = false) :
    categorizeAux ql cats = ofS "general" := by
  induction cats with
  | nil => rfl
  | cons p rest ih =>
    obtain ⟨cat, kws⟩ := p
    have hany : List.any kws (fun kw => occursIn kw ql) = false := by
      rw [List.any_eq_false]
      intro kw hkw
      simp [h (cat, kws) (by simp) kw hkw]
    simp only [categorizeAux, hany, Bool.false_eq_true, if_false]
    exact ih (fun q hq kw hkw => h q (by simp [hq]) kw hkw)

theorem runFrames_shape (es : List TransportEvent) :
    ∀ st : AnswerAcc, ∃ (pre : List Chunk) (term : Chunk),
      runFrames st es = pre ++ [term] ∧ List.all pre isContentChunk = true ∧
      isTerminalChunk term = true := by
  induction es with
  | nil =>
    intro st
    exact ⟨[], Chunk.complete (pyStrip st.body) (pyStrip st.sources), rfl, rfl, rfl⟩
  | cons e es ih =>
    intro st
    cases e with
    | raiseExc m => exact ⟨[], Chunk.error (errMsg m), rfl, rfl, rfl⟩
    | frame f =>
      cases hd : decodeFrame f with
      | skip =>
        obtain ⟨pre, term, h1, h2, h3⟩ := ih st
        exact ⟨pre, term, by simp [runFrames, hd, h1], h2, h3⟩
      | stop =>
        exact ⟨[], Chunk.complete (pyStrip st.body) (pyStrip st.sources),
          by simp [runFrames, hd], rfl, rfl⟩
      | fail m =>
        exact ⟨[], Chunk.error (errMsg m), by simp [runFrames, hd], rfl, rfl⟩
      | deliver c =>
        obtain ⟨pre, term, h1, h2, h3⟩ := ih (feed st c)
        refine ⟨Chunk.content c (feed st c).body :: pre, term, ?_, ?_, h3⟩
        · simp [runFrames, hd, h1]
        · simp [List.all_cons, isContentChunk, h2]

theorem accumBodies_get (ds : List Str) :
    ∀ (st : AnswerAcc) (i : Nat), i < ds.length →
      (accumBodies st ds)[i]? = some ((List.foldl feed st (List.take (i + 1) ds)).body) := by
  induction ds with
  | nil => intro st i h; simp at h
  | cons d ds ih =>
    intro st i h
    cases i with
    | zero => simp [accumBodies]
    | succ n =>
      have hn : n < ds.length := by simpa using h
      simpa [accumBodies, List.take] using ih (feed st d) n hn

theorem runFrames_filterMap_content (es : List TransportEvent) :
    ∀ st : AnswerAcc,
      List.filterMap contentAccum (runFrames st es) = accumBodies st (deliveredDeltas es) := by
  induction es with
  | nil => intro st; rfl
  | cons e es ih =>
    intro st
    cases e with
    | raiseExc m => rfl
    | frame f =>
      cases hd : decodeFrame f with
      | skip =>
        rw [show runFrames st (TransportEvent.frame f :: es) = runFrames st es from
          by simp [runFrames, hd]]
        rw [show deliveredDeltas (TransportEvent.frame f :: es) = deliveredDeltas es from
          by simp [deliveredDeltas, hd]]
        exact ih st
      | stop =>
        rw [show runFrames st (TransportEvent.frame f :: es)
            = [Chunk.complete (pyStrip st.body) (pyStrip st.sources)] from
          by simp [runFrames, hd]]
        rw [show deliveredDeltas (TransportEvent.frame f :: es) = [] from
          by simp [deliveredDeltas, hd]]
        rfl
      | fail m =>
        rw [show runFrames st (TransportEvent.frame f :: es) = [Chunk.error (errMsg m)] from
          by simp [runFrames, hd]]
        rw [show deliveredDeltas (TransportEvent.frame f :: es) = [] from
          by simp [deliveredDeltas, hd]]
        rfl
      | deliver c =>
        rw [show runFrames st (TransportEvent.frame f :: es)
            = Chunk.content c (feed st c).body :: runFrames (feed st c) es from
          by simp [runFrames, hd]]
        rw [show deliveredDeltas (TransportEvent.frame f :: es) = c :: deliveredDeltas es from
          by simp [deliveredDeltas, hd]]
        rw [show List.filterMap contentAccum
              (Chunk.content c (feed st c).body :: runFrames (feed st c) es)
            = (feed st c).body :: List.filterMap contentAccum (runFrames (feed st c) es) from
          by simp [List.filterMap_cons, contentAccum]]
        rw [ih (feed st c)]
        rfl

/-- Claim C1.  The claim states chunk-boundary invariance: feeding the
decoder/splitter pair the same underlying text chunked differently across
frames yields the same final body and sources, including when the
separator literal is split across two deltas.  The code violates this:
the per-delta membership test never buffers a partial separator prefix,
so the same text delivered as one delta or as two deltas straddling the
separator produces different final accumulators and different final
complete chunks. -/
theorem c1_chunking_divergence :
    ofS "Body Sour" ++ ofS "ces:\nA: u" = ofS "Body Sources:\nA: u"
    ∧ List.foldl feed initAcc [ofS "Body Sources:\nA: u"]
        ≠ List.foldl feed initAcc [ofS "Body Sour", ofS "ces:\nA: u"]
    ∧ (stream_pplx_response (Transport.mk none
          [TransportEvent.frame (contentFrame (ofS "Body Sources:\nA: u"))])).getLast?
        ≠ (stream_pplx_response (Transport.mk none
          [TransportEvent.frame (contentFrame (ofS "Body Sour")),
           TransportEvent.frame (contentFrame (ofS "ces:\nA: u"))])).getLast? := by
  refine ⟨by decide, by decide, by decide⟩

/-- Claim C2, as stated: ordinals of the parsed sources are the positions
in the filtered line list, hence dense 1..N.  False on the code: the
enumeration index is taken over the unfiltered line list, so a dropped
colon-free line leaves a gap. -/
theorem c2_ordinals_not_dense :
    ¬ (List.map Source.number (parseSources (ofS "A: u\njunk\nB: v"))
        = List.range' 1 (parseSources (ofS "A: u\njunk\nB: v")).length) := by
  decide

/-- Claim C2, amended.  Sources are split on line breaks and colon-free
lines are dropped, but each surviving source keeps the 1-based index of
its line in the unfiltered split: the ordinal sequence is strictly
increasing and bounded by the number of lines, and it is the dense
sequence 1..N exactly when every line contains a colon. -/
theorem c2_ordinals_positional (sources_text : Str) :
    List.Pairwise (fun a b => a < b) (List.map Source.number (parseSources sources_text))
    ∧ (∀ s ∈ parseSources sources_text,
        1 ≤ s.number ∧ s.number ≤ (sourceLines sources_text).length)
    ∧ ((∀ x ∈ sourceLines sources_text, (findSplit colonS x).isSome = true) →
        List.map Source.number (parseSources sources_text)
          = List.range' 1 (sourceLines sources_text).length) := by
  refine ⟨parseSources_numbers_pairwise (sourceLines sources_text) 1, ?_, ?_⟩
  · intro s hs
    have hb := parseSources_number_bounds (sourceLines sources_text) 1 s hs
    omega
  · intro hall
    exact parseSources_numbers_dense (sourceLines sources_text) 1 hall

/-- Witness for the amended claim C2 at a concrete well-formed sources
block: the ordinals are exactly 1..N. -/
theorem c2_ordinals_positional_witness :
    List.map Source.number (parseSources (ofS "X: y\nZ: w"))
      = List.range' 1 (sourceLines (ofS "X: y\nZ: w")).length :=
  (c2_ordinals_positional (ofS "X: y\nZ: w")).2.2 (by decide)

/-- Claim C3, as stated: a non-JSON frame and a JSON frame missing an
expected field are both recovered by skipping, and never terminate the
sequence.  False on the code for a JSON payload without the choices key:
the KeyError escapes the inner json-only handler, the outer except
clause yields an error chunk, and the subsequent well-formed frame is
never delivered. -/
theorem c3_missing_choices_terminates :
    stream_pplx_response (Transport.mk none
      [TransportEvent.frame (Frame.json (ChunkJson.mk none)),
       TransportEvent.frame (contentFrame (ofS "hi"))])
    = [Chunk.error (ofS "Error communicating with PPLX: KeyError: choices")] := by
  decide

/-- Claim C3, amended.  A frame whose payload is not valid JSON is
skipped, and a well-formed frame whose delta lacks the content key
yields no delta and is skipped: decoding continues identically in both
cases and a subsequent well-formed frame is still delivered.  A JSON
payload lacking the choices, finish_reason or delta structure is not
recovered: it ends the stream with one error chunk. -/
theorem c3_malformed_frame_recovery :
    (∀ (st : AnswerAcc) (es : List TransportEvent),
        runFrames st (TransportEvent.frame Frame.notJson :: es) = runFrames st es)
    ∧ (∀ (st : AnswerAcc) (es : List TransportEvent),
        runFrames st (TransportEvent.frame noContentFrame :: es) = runFrames st es)
    ∧ stream_pplx_response (Transport.mk none
        [TransportEvent.frame Frame.notJson,
         TransportEvent.frame (contentFrame (ofS "hi"))])
      = [Chunk.content (ofS "hi") (ofS "hi"), Chunk.complete (ofS "hi") (ofS "")] := by
  refine ⟨fun st es => rfl, fun st es => rfl, by decide⟩

/-- Claim C4.  A query that is falsy after stripping is rejected by
process_streaming_query before the streaming call is dispatched: the
result is the invalid-input error and the completion-API call count is
zero. -/
theorem c4_empty_query_rejected (q : Str) (t : Transport) (isRelated : Bool)
    (h : pyStrip q = []) :
    process_streaming_query q t isRelated
      = (PResult.perror (ofS "Please enter a valid question."), 0) := by
  simp [process_streaming_query, h]

/-- Witness for claim C4 at a whitespace-only query. -/
theorem c4_empty_query_rejected_witness :
    process_streaming_query (ofS "   ") (Transport.mk none []) false
      = (PResult.perror (ofS "Please enter a valid question."), 0) :=
  c4_empty_query_rejected (ofS "   ") (Transport.mk none []) false (by decide)

/-- Claim C5.  categorize_query is a total function on text: the query is
lowered before matching, matching is substring containment of each
keyword, categories are tried in the declared table order with the first
match winning, the result always lies in the fixed eight-element
category set, classification is case-insensitive (two queries with the
same lowering classify identically, in particular the DOSAGE pair), and
the empty query and any query matching no keyword yield general. -/
theorem c5_classify_total_ordered :
    (∀ q : Str, categorize_query q ∈
      [ofS "dosage", ofS "side_effects", ofS "benefits", ofS "storage",
       ofS "lifestyle", ofS "interactions", ofS "cost", ofS "general"])
    ∧ (∀ q1 q2 : Str, lowerStr q1 = lowerStr q2 →
        categorize_query q1 = categorize_query q2)
    ∧ categorize_query (ofS "DOSAGE question") = ofS "dosage"
    ∧ categorize_query (ofS "dosage question") = ofS "dosage"
    ∧ categorize_query (ofS "") = ofS "general"
    ∧ (∀ (ql cat : Str) (kws : List Str) (rest : List (Str × List Str)),
        List.any kws (fun kw => occursIn kw ql) = true →
        categorizeAux ql ((cat, kws) :: rest) = cat)
    ∧ (∀ (ql cat : Str) (kws : List Str) (rest : List (Str × List Str)),
        List.any kws (fun kw => occursIn kw ql) = false →
        categorizeAux ql ((cat, kws) :: rest) = categorizeAux ql rest)
    ∧ (∀ q : Str, (∀ p ∈ keywordCategories, ∀ kw ∈ p.2, occursIn kw (lowerStr q) = false) →
        categorize_query q = ofS "general") := by
  refine ⟨?_, ?_, by decide, by decide, by decide, ?_, ?_, ?_⟩
  · intro q
    simpa [keywordCategories] using categorizeAux_mem (lowerStr q) keywordCategories
  · intro q1 q2 h
    simp [categorize_query, h]
  · intro ql cat kws rest h
    simp [categorizeAux, h]
  · intro ql cat kws rest h
    simp [categorizeAux, h]
  · intro q h
    exact categorizeAux_no_match (lowerStr q) keywordCategories h

/-- Witness for claim C5: a query matching no keyword classifies as
general, discharging the no-match hypothesis at a concrete query. -/
theorem c5_classify_witness : categorize_query (ofS "qq") = ofS "general" :=
  c5_classify_total_ordered.2.2.2.2.2.2.2 (ofS "qq") (by decide)

/-- Claim C6, as stated: a marker whose number exceeds the count of
parsed sources is left as literal text.  False on the code when a
colon-free line leaves a gap: here two sources are parsed but their
assigned numbers are 1 and 3, so the marker with number 3, above the
count N = 2, is still rewritten. -/
theorem c6_marker_outside_range_replaced :
    (parseSources (ofS "A: u\njunk\nB: v")).length = 2
    ∧ (format_citations_and_sources (ofS "see [3]") (ofS "A: u\njunk\nB: v")).1
        ≠ ofS "see [3]" := by
  refine ⟨by decide, by decide⟩

/-- Claim C6, amended.  Every occurrence of a marker of an assigned
ordinal (the 1-based position of the source line in the unfiltered
split) is replaced by its clickable cross-reference; a marker whose
number is not an assigned ordinal is left as literal text and causes no
failure; with empty sources text the source sequence is empty and the
body is returned unchanged. -/
theorem c6_citation_rewriting :
    (∀ c : Str, format_citations_and_sources c (ofS "") = (c, []))
    ∧ (∀ c sources_text : Str,
        (∀ s ∈ parseSources sources_text, occursIn (citationStr s.number) c = false) →
        (format_citations_and_sources c sources_text).1 = c)
    ∧ (format_citations_and_sources (ofS "x [7] y") (ofS "A: u\nB: v\nC: w")).1
        = ofS "x [7] y"
    ∧ List.map Source.number (parseSources (ofS "A: u\nB: v\nC: w")) = [1, 2, 3]
    ∧ (format_citations_and_sources (ofS "see [1] and [2]") (ofS "A: u\nB: v")).1
        = ofS "see <a href=\"#1\" class=\"citation-link\">[1]</a> and <a href=\"#2\" class=\"citation-link\">[2]</a>" := by
  refine ⟨fun c => rfl, ?_, by decide, by decide, by decide⟩
  intro c sources_text h
  exact formatContent_no_occ (parseSources sources_text) c h

/-- Witness for the amended claim C6: a body without markers is returned
unchanged, discharging the no-marker hypothesis at a concrete pair. -/
theorem c6_citation_rewriting_witness :
    (format_citations_and_sources (ofS "hello") (ofS "A: u")).1 = ofS "hello" :=
  c6_citation_rewriting.2.1 (ofS "hello") (ofS "A: u") (by decide)

/-- Claim C7.  get_related_questions returns at most three strings; a
failing upstream call yields the empty list instead of an error; every
returned string is nonempty and already stripped; and on the
specification scenario of five lines with two blanks exactly the first
three non-blank, trimmed lines are kept, with truncation applying
however many lines arrive. -/
theorem c7_followups_bounded_trimmed :
    (∀ r : Except Str Str, (get_related_questions r).length ≤ 3)
    ∧ (∀ m : Str, get_related_questions (Except.error m) = [])
    ∧ (∀ (r : Except Str Str) (q : Str),
        q ∈ get_related_questions r → q ≠ [] ∧ pyStrip q = q)
    ∧ get_related_questions (Except.ok (ofS "Q1\n\n Q2\n\nQ3"))
        = [ofS "Q1", ofS "Q2", ofS "Q3"]
    ∧ get_related_questions (Except.ok (ofS "A\nB\nC\nD\nE"))
        = [ofS "A", ofS "B", ofS "C"] := by
  refine ⟨?_, fun m => rfl, ?_, by decide, by decide⟩
  · intro r
    cases r with
    | error m => simp [get_related_questions]
    | ok content => simp [get_related_questions]
  · intro r q hq
    cases r with
    | error m => simp [get_related_questions] at hq
    | ok content =>
      simp only [get_related_questions] at hq
      have hq2 := List.mem_of_mem_take hq
      have hq3 := List.mem_filter.mp hq2
      obtain ⟨q0, _, hq0⟩ := List.mem_map.mp hq3.1
      have hne : q ≠ [] := by
        intro hnil
        rw [hnil] at hq3
        simp at hq3
      refine ⟨hne, ?_⟩
      rw [← hq0]
      exact pyStrip_idem q0

/-- Witness for claim C7: the first returned question of the scenario is
nonempty and stripped. -/
theorem c7_followups_witness :
    ofS "Q1" ≠ [] ∧ pyStrip (ofS "Q1") = ofS "Q1" :=
  c7_followups_bounded_trimmed.2.2.1 (Except.ok (ofS "Q1\n\n Q2\n\nQ3")) (ofS "Q1")
    (by decide)

/-- Claim C8, as stated: after the delta containing the separator, every
subsequent delta is appended to the sources text only.  False on the
code: a later delta that itself contains the separator literal again
has its pre-separator part appended to the body even though the flag is
already set. -/
theorem c8_second_separator_appends_body :
    (feed initAcc (ofS "Body Sources: s1")).found_sources = true
    ∧ (feed (feed initAcc (ofS "Body Sources: s1")) (ofS "more Sources: s2")).body
        ≠ (feed initAcc (ofS "Body Sources: s1")).body := by
  refine ⟨by decide, by decide⟩

/-- Claim C8, amended.  The found_sources flag of the accumulator equals
the old flag joined with the separator test of the delta, so once true
it never reverts over any sequence of feeds; a separator-free delta is
appended to the body while the flag is false and to the sources once the
flag is true; but a delta containing the separator again sends its
pre-separator part to the body and its post-separator part to the
sources even when the flag is already set. -/
theorem c8_flag_monotone :
    (∀ (acc : AnswerAcc) (c : Str),
        (feed acc c).found_sources = (acc.found_sources || occursIn sepSources c))
    ∧ (∀ (acc : AnswerAcc) (c : Str), acc.found_sources = false →
        occursIn sepSources c = false →
        feed acc c = AnswerAcc.mk (acc.body ++ c) acc.sources false)
    ∧ (∀ (acc : AnswerAcc) (c : Str), acc.found_sources = true →
        occursIn sepSources c = false →
        feed acc c = AnswerAcc.mk acc.body (acc.sources ++ c) true)
    ∧ (∀ (acc : AnswerAcc) (c pre post : Str),
        findSplit sepSources c = some (pre, post) →
        feed acc c = AnswerAcc.mk (acc.body ++ pre) (acc.sources ++ post) true)
    ∧ (∀ (ds : List Str) (acc : AnswerAcc), acc.found_sources = true →
        (List.foldl feed acc ds).found_sources = true) := by
  have hflag : ∀ (acc : AnswerAcc) (c : Str),
      (feed acc c).found_sources = (acc.found_sources || occursIn sepSources c) := by
    intro acc c
    cases hf : findSplit sepSources c with
    | none =>
      cases hacc : acc.found_sources <;> simp [feed, hf, occursIn, hacc]
    | some p =>
      obtain ⟨pre, post⟩ := p
      simp [feed, hf, occursIn]
  refine ⟨hflag, ?_, ?_, ?_, ?_⟩
  · intro acc c hacc hocc
    have hf : findSplit sepSources c = none := by
      cases hf2 : findSplit sepSources c with
      | none => rfl
      | some p => rw [occursIn, hf2] at hocc; simp at hocc
    simp [feed, hf, hacc]
  · intro acc c hacc hocc
    have hf : findSplit sepSources c = none := by
      cases hf2 : findSplit sepSources c with
      | none => rfl
      | some p => rw [occursIn, hf2] at hocc; simp at hocc
    simp [feed, hf, hacc]
  · intro acc c pre post hf
    simp [feed, hf]
  · intro ds
    induction ds with
    | nil => intro acc hacc; exact hacc
    | cons d rest ih =>
      intro acc hacc
      have h1 : (feed acc d).found_sources = true := by
        rw [hflag, hacc, Bool.true_or]
      exact ih (feed acc d) h1

/-- Witness for the amended claim C8: once the flag is set, a later
separator-free delta leaves it set over a fold. -/
theorem c8_flag_monotone_witness :
    (List.foldl feed (AnswerAcc.mk [] [] true) [ofS "tail"]).found_sources = true :=
  c8_flag_monotone.2.2.2.2 [ofS "tail"] (AnswerAcc.mk [] [] true) rfl

/-- Claim C9.  The accumulated text of every mid-stream notification is
exactly the current bodyText: for every transport behaviour, the
sequence of accumulated texts carried by the content chunks equals the
successive values of the body accumulator after each delivered delta,
starting from the initial accumulator of the query, and the value after
the i-th delivered delta is the body of the fold of feed over exactly
the first i+1 delivered deltas.  Text the splitter routes to the
sources accumulator therefore never appears in any mid-stream
notification.  A failed POST emits no mid-stream notification at all,
and on the specification scenario both notifications carry exactly the
answer body with no sources text. -/
theorem c9_midstream_body_only :
    (∀ (es : List TransportEvent) (st : AnswerAcc),
        List.filterMap contentAccum (runFrames st es) = accumBodies st (deliveredDeltas es))
    ∧ (∀ t : Transport, t.init = none →
        List.filterMap contentAccum (stream_pplx_response t)
          = accumBodies initAcc (deliveredDeltas t.events))
    ∧ (∀ (t : Transport) (m : Str), t.init = some m →
        List.filterMap contentAccum (stream_pplx_response t) = [])
    ∧ (∀ (ds : List Str) (st : AnswerAcc) (i : Nat), i < ds.length →
        (accumBodies st ds)[i]? = some ((List.foldl feed st (List.take (i + 1) ds)).body))
    ∧ List.filterMap contentAccum (stream_pplx_response scenarioTransport)
        = [ofS "Take 0.25mg weekly. ", ofS "Take 0.25mg weekly. "] := by
  refine ⟨?_, ?_, ?_, ?_, by decide⟩
  · intro es st
    exact runFrames_filterMap_content es st
  · intro t h
    rw [show stream_pplx_response t = runFrames initAcc t.events from
      by simp [stream_pplx_response, h]]
    exact runFrames_filterMap_content t.events initAcc
  · intro t m h
    rw [show stream_pplx_response t = [Chunk.error (errMsg m)] from
      by simp [stream_pplx_response, h]]
    rfl
  · intro ds st i h
    exact accumBodies_get ds st i h

/-- Witness for claim C9: on the specification scenario the mid-stream
accumulated texts are exactly the successive body values of the
delivered deltas, with the no-initial-failure hypothesis discharged. -/
theorem c9_midstream_witness :
    List.filterMap contentAccum (stream_pplx_response scenarioTransport)
      = accumBodies initAcc (deliveredDeltas scenarioTransport.events) :=
  c9_midstream_body_only.2.1 scenarioTransport rfl

/-- Claim C10.  For every transport behaviour, including an exception
raised before or during iteration, the chunk sequence of
stream_pplx_response is some number of content chunks followed by
exactly one terminal chunk, either complete or error; and the complete
chunk emitted at end of stream carries the stripped body and stripped
sources accumulators. -/
theorem c10_terminal_chunk :
    (∀ t : Transport, ∃ (pre : List Chunk) (term : Chunk),
        stream_pplx_response t = pre ++ [term]
        ∧ List.all pre isContentChunk = true
        ∧ isTerminalChunk term = true)
    ∧ (∀ st : AnswerAcc,
        runFrames st [] = [Chunk.complete (pyStrip st.body) (pyStrip st.sources)]) := by
  refine ⟨?_, fun st => rfl⟩
  intro t
  cases hinit : t.init with
  | some m =>
    exact ⟨[], Chunk.error (errMsg m), by simp [stream_pplx_response, hinit], rfl, rfl⟩
  | none =>
    obtain ⟨pre, term, h1, h2, h3⟩ := runFrames_shape t.events initAcc
    exact ⟨pre, term, by simp [stream_pplx_response, hinit, h1], h2, h3⟩
